import Mathlib

/-!
# Verification of the container-manager runtime manager (src/docker/manager.go)

Shallow embedding of the `docker` package's `DockerManager` and its
operations.  External effects (the daemon client calls, `os.Getwd`, the
reference parser, the credential-config read) are modelled as explicit
inputs of type `Except`/`Option`; each operation returns, besides its Go
return values, the list of daemon calls it issued, the manager state after
the call, and the number of mutex acquisitions it performed.
-/

namespace ContainerManager

/-- `contman.Mount`: caller-facing mount specification
(source path, target path, read-only flag). -/
structure ContmanMount where
  Source : String
  Target : String
  ReadOnly : Bool
deriving Repr, DecidableEq

/-- `contman.Config`: runtime-agnostic container configuration.
Go's `Env` is a `map[string]string`; it is modelled as an association list
in the (unspecified) iteration order the Go runtime would produce. -/
structure Config where
  Image : String
  Cmd : String
  Env : List (String × String)
  Mounts : List ContmanMount
deriving Repr, DecidableEq

/-- `mount.Type`: the manager only ever produces bind mounts. -/
inductive MountType where
  | bind
deriving Repr, DecidableEq

/-- `mount.Mount`: the daemon-facing mount create-parameter built by
`ContainerCreate`. -/
structure DockerMount where
  Source : String
  Target : String
  ReadOnly : Bool
  type : MountType
deriving Repr, DecidableEq

/-- `types.AuthConfig` (docker API): registry credentials sent with a pull.
All seven fields of the Go struct, in declaration order. -/
structure AuthConfig where
  Username : String
  Password : String
  Auth : String
  Email : String
  ServerAddress : String
  IdentityToken : String
  RegistryToken : String
deriving Repr, DecidableEq

/-- The zero value `types.AuthConfig{}`. -/
def AuthConfig.empty : AuthConfig :=
  ⟨"", "", "", "", "", "", ""⟩

/-- `docker.AuthConfiguration` (fsouza client): one stored credential entry. -/
structure AuthConfiguration where
  Username : String
  Password : String
  Email : String
  ServerAddress : String
deriving Repr, DecidableEq

/-- `docker.AuthConfigurations`: the on-disk credential store, keyed by
registry domain (Go `map[string]AuthConfiguration`, as an association list). -/
structure AuthConfigurations where
  Configs : List (String × AuthConfiguration)
deriving Repr, DecidableEq

/-- A parsed normalized named reference (`reference.Named`): the embedding
only needs the registry domain (`reference.Domain`) and the remaining path. -/
structure NamedRef where
  domain : String
  path : String
deriving Repr, DecidableEq

/-- `types.ImageSummary` as consumed by `HasImage`: only `RepoTags` is read. -/
structure ImageInfo where
  RepoTags : List String
deriving Repr, DecidableEq

/-- The `DockerManager` struct: the four fields hold opaque handles
(client, context, mutex identity, cancel function), modelled as tokens. -/
structure DockerManager where
  client : Nat
  context : Nat
  mutex : Nat
  cancel : Nat
deriving Repr, DecidableEq

/-- `container.Config` as filled in by `ContainerCreate`
(only the fields the code sets). -/
structure ContainerConfigParams where
  Image : String
  Entrypoint : List String
  Cmd : List String
  WorkingDir : String
  Env : List String
deriving Repr, DecidableEq

/-- `container.HostConfig` as filled in by `ContainerCreate`
(only the fields the code sets). -/
structure HostConfigParams where
  Mounts : List DockerMount
  NetworkMode : String
deriving Repr, DecidableEq

/-- A daemon call issued through the manager's client; every call records
the client handle and context it was issued with. -/
inductive DaemonCall where
  | imageList (client context : Nat)
  | imagePull (client context : Nat) (ref registryAuth : String)
  | containerCreate (client context : Nat) (config : ContainerConfigParams)
      (hostConfig : HostConfigParams) (containerName : String)
deriving Repr, DecidableEq

/-- Result of running one manager operation: the Go return value, the daemon
calls issued (in order), the manager state afterwards, and how many times the
manager's mutex was acquired. -/
structure OpResult (α : Type) where
  result : α
  calls : List DaemonCall
  dmAfter : DockerManager
  locks : Nat
deriving Repr

/-- `HasImage` (manager.go:76-103).  The daemon's `ImageList` answer is the
explicit input `listResult`; the Go `OuterLoop` over images and repo-tags is
`List.any` twice.  The return type is `Bool`: no error is ever propagated. -/
def HasImage (dm : DockerManager) (image : String)
    (listResult : Except String (List ImageInfo)) : OpResult Bool :=
  if image = "" then
    ⟨false, [], dm, 0⟩
  else
    let image := if image.data.contains ':' then image else image ++ ":latest"
    match listResult with
    | .error _ => ⟨false, [.imageList dm.client dm.context], dm, 0⟩
    | .ok images =>
        ⟨images.any (fun imageInfo => imageInfo.RepoTags.any (fun tag => tag == image)),
         [.imageList dm.client dm.context], dm, 0⟩

/-- Map lookup `authConfigurations.Configs[registry]` on the association
list modelling the Go map. -/
def lookupConfig (registry : String) :
    List (String × AuthConfiguration) → Option AuthConfiguration
  | [] => none
  | (k, v) :: rest => if k = registry then some v else lookupConfig registry rest

/-- `getAuthConfig` (manager.go:172-187).  The outcome of
`docker.NewAuthConfigurationsFromDockerCfg()` is the explicit input
`cfgRead`.  The Go function returns a `*types.AuthConfig`, modelled as
`Option AuthConfig` (`some` = non-nil); every branch returns a non-nil
pointer. -/
def getAuthConfig (cfgRead : Except String AuthConfigurations)
    (registry : String) : Option AuthConfig :=
  match cfgRead with
  | .error _ => some AuthConfig.empty
  | .ok authConfigurations =>
    match lookupConfig registry authConfigurations.Configs with
    | none => some AuthConfig.empty
    | some authConfiguration =>
        some { AuthConfig.empty with
                 Username := authConfiguration.Username
                 Password := authConfiguration.Password }

/-- One hex digit, lowercase, as Go's `encoding/json` emits in `\u00XX`. -/
def hexDigit (n : Nat) : Char :=
  "0123456789abcdef".data.getD n '0'

/-- Escaping of one character per Go's `encoding/json` default encoder:
quote, backslash, the named control escapes, HTML-relevant characters as
`\u00XX`, remaining control characters as `\u00XX`, and the two JavaScript
line separators. -/
def jsonEscapeChar (c : Char) : String :=
  if c = '"' then "\\\""
  else if c = '\\' then "\\\\"
  else if c = '\n' then "\\n"
  else if c = '\r' then "\\r"
  else if c = '\t' then "\\t"
  else if c = '<' then "\\u003c"
  else if c = '>' then "\\u003e"
  else if c = '&' then "\\u0026"
  else if c.toNat < 0x20 then
    "\\u00" ++ String.mk [hexDigit (c.toNat / 16), hexDigit (c.toNat % 16)]
  else if c.toNat = 0x2028 then "\\u2028"
  else if c.toNat = 0x2029 then "\\u2029"
  else String.mk [c]

/-- A JSON string literal for `s`, per Go's `encoding/json`. -/
def jsonQuote (s : String) : String :=
  "\"" ++ String.join (s.data.map jsonEscapeChar) ++ "\""

/-- One `json:"<nm>,omitempty"` string field: omitted when empty. -/
def jsonField (nm val : String) : List String :=
  if val = "" then [] else [jsonQuote nm ++ ":" ++ jsonQuote val]

/-- Go's `json.Marshal` on a `types.AuthConfig` value: the seven string
fields in struct order, each tagged `omitempty`. -/
def jsonMarshalAuthConfig (a : AuthConfig) : String :=
  "\x7b" ++
    String.intercalate ","
      (jsonField "username" a.Username ++ jsonField "password" a.Password ++
       jsonField "auth" a.Auth ++ jsonField "email" a.Email ++
       jsonField "serveraddress" a.ServerAddress ++
       jsonField "identitytoken" a.IdentityToken ++
       jsonField "registrytoken" a.RegistryToken) ++
  "\x7d"

/-- Go's `json.Marshal` applied to the `*types.AuthConfig` returned by
`getAuthConfig`, with its `(bytes, error)` signature.  For this type — a
(pointer to a) struct of plain string fields — the Go marshaler cannot
fail: it has no unsupported types, no cycles, and no custom marshalers, so
the model always returns `.ok` (a nil pointer would marshal to `null`). -/
def goJsonMarshal (a : Option AuthConfig) : Except String String :=
  .ok (match a with
       | none => "null"
       | some ac => jsonMarshalAuthConfig ac)

/-- UTF-8 encoding of one character, as a list of byte values. -/
def utf8EncodeChar (c : Char) : List Nat :=
  let n := c.toNat
  if n < 0x80 then [n]
  else if n < 0x800 then
    [0xC0 ||| (n >>> 6), 0x80 ||| (n &&& 0x3F)]
  else if n < 0x10000 then
    [0xE0 ||| (n >>> 12), 0x80 ||| ((n >>> 6) &&& 0x3F), 0x80 ||| (n &&& 0x3F)]
  else
    [0xF0 ||| (n >>> 18), 0x80 ||| ((n >>> 12) &&& 0x3F),
     0x80 ||| ((n >>> 6) &&& 0x3F), 0x80 ||| (n &&& 0x3F)]

/-- The UTF-8 bytes of a string (Go strings are UTF-8 byte slices). -/
def utf8Bytes (s : String) : List Nat :=
  (s.data.map utf8EncodeChar).flatten

/-- The URL-safe base64 alphabet of Go's `base64.URLEncoding`. -/
def base64urlAlphabet : List Char :=
  "ABCDEFGHIJKLMNOPQRSTUVWXYZabcdefghijklmnopqrstuvwxyz0123456789-_".data

/-- One alphabet character for a 6-bit value. -/
def b64char (n : Nat) : Char :=
  base64urlAlphabet.getD n 'A'

/-- Go's `base64.URLEncoding.EncodeToString`: URL-safe alphabet with `=`
padding, three input bytes per four output characters. -/
def base64urlEncode : List Nat → String
  | [] => ""
  | [b1] =>
      String.mk [b64char (b1 >>> 2), b64char ((b1 &&& 0x3) <<< 4)] ++ "=="
  | [b1, b2] =>
      String.mk [b64char (b1 >>> 2),
                 b64char (((b1 &&& 0x3) <<< 4) ||| (b2 >>> 4)),
                 b64char ((b2 &&& 0xF) <<< 2)] ++ "="
  | b1 :: b2 :: b3 :: rest =>
      String.mk [b64char (b1 >>> 2),
                 b64char (((b1 &&& 0x3) <<< 4) ||| (b2 >>> 4)),
                 b64char (((b2 &&& 0xF) <<< 2) ||| (b3 >>> 6)),
                 b64char (b3 &&& 0x3F)] ++ base64urlEncode rest

/-- The error value returned by `PullImage`: the parse error, the (dead)
marshal error, or the daemon pull error, each carrying the Go error text. -/
inductive PullError where
  | referenceParse (e : String)
  | marshal (e : String)
  | pull (e : String)
deriving Repr, DecidableEq

/-- `PullImage` (manager.go:52-74).  External outcomes are explicit inputs:
`parseResult` for `reference.ParseNormalizedNamed(image)`, `cfgRead` for the
credential-config read inside `getAuthConfig`, and `pullOutcome` for the
daemon's `ImagePull` request initiation.  The progress-stream copy to
standard output does not affect the return value (copy errors are
discarded) and is not modelled.  The Go return value `error` is
`Option PullError` (`none` = nil). -/
def PullImage (dm : DockerManager) (image : String)
    (parseResult : Except String NamedRef)
    (cfgRead : Except String AuthConfigurations)
    (pullOutcome : Except String Unit) : OpResult (Option PullError) :=
  match parseResult with
  | .error e => ⟨some (.referenceParse e), [], dm, 0⟩
  | .ok named =>
    let authConfig := getAuthConfig cfgRead named.domain
    match goJsonMarshal authConfig with
    | .error e => ⟨some (.marshal e), [], dm, 0⟩
    | .ok encodedJSON =>
      let authStr := base64urlEncode (utf8Bytes encodedJSON)
      match pullOutcome with
      | .error e => ⟨some (.pull e), [.imagePull dm.client dm.context image authStr], dm, 0⟩
      | .ok _ => ⟨none, [.imagePull dm.client dm.context image authStr], dm, 0⟩

/-- The error value returned by `ContainerCreate`: the `os.Getwd` error or
the daemon's create error, each carrying the Go error text. -/
inductive CreateError where
  | getwd (e : String)
  | create (e : String)
deriving Repr, DecidableEq

/-- `DockerContainer`: the handle returned on success, binding the created
container's id to the owning manager. -/
structure DockerContainer where
  manager : DockerManager
  id : String
deriving Repr, DecidableEq

/-- `ContainerCreate` (manager.go:105-156).  External outcomes are explicit
inputs: `wdResult` for `os.Getwd()` and `createResult` for the daemon's
`ContainerCreate` call (whose success value is the new container id).  The
Go `for i, m := range config.Mounts` filling a pre-sized slice is
`List.map`, as is the `KEY=VALUE` flattening of the environment map (in the
map's iteration order).  The networking config is nil and the name `""`. -/
def ContainerCreate (dm : DockerManager) (config : Config)
    (wdResult : Except String String)
    (createResult : Except String String) :
    OpResult (Except CreateError DockerContainer) :=
  match wdResult with
  | .error e => ⟨.error (.getwd e), [], dm, 0⟩
  | .ok wd =>
    let mounts := config.Mounts.map (fun m =>
      { Source := m.Source, Target := m.Target, ReadOnly := m.ReadOnly,
        type := MountType.bind : DockerMount })
    let env := config.Env.map (fun kv => kv.1 ++ "=" ++ kv.2)
    let containerConfig : ContainerConfigParams :=
      { Image := config.Image, Entrypoint := ["sh"], Cmd := ["-c", config.Cmd],
        WorkingDir := wd, Env := env }
    let hostConfig : HostConfigParams :=
      { Mounts := mounts, NetworkMode := "host" }
    let call := DaemonCall.containerCreate dm.client dm.context
      containerConfig hostConfig ""
    match createResult with
    | .error e => ⟨.error (.create e), [call], dm, 0⟩
    | .ok respID => ⟨.ok ⟨dm, respID⟩, [call], dm, 0⟩

/-- `GetSystemMounts` (manager.go:158-170): the hard-coded mount pair.  The
first Go struct literal leaves `ReadOnly` at its zero value `false`.  The
receiver is unused; no daemon call can occur. -/
def GetSystemMounts (dm : DockerManager) : OpResult (List ContmanMount) :=
  ⟨[{ Source := "/var/run/docker.sock", Target := "/var/run/docker.sock",
      ReadOnly := false },
    { Source := "/root/.docker", Target := "/root/.docker", ReadOnly := true }],
   [], dm, 0⟩

/-- Modelled from the spec's words, for comparison with the code's colon
test: under the image-reference grammar a reference carries an explicit tag
exactly when its final path segment (the part after the last `/`) contains
the tag separator `:`.  A colon earlier in the string (a registry port such
as `localhost:5000/alpine`) is not a tag. -/
def hasExplicitTag (image : String) : Bool :=
  (image.data.reverse.takeWhile (fun c => c != '/')).contains ':'

/-- Whether the credential store, as read, holds an entry for `registry`
(`none` also when the config itself was unreadable). -/
def storedCreds (cfgRead : Except String AuthConfigurations)
    (registry : String) : Option AuthConfiguration :=
  match cfgRead with
  | .error _ => none
  | .ok acs => lookupConfig registry acs.Configs

/-- The host-config mount list of the single create call issued (empty when
no create call was issued). -/
def createCallMounts (r : OpResult (Except CreateError DockerContainer)) :
    List DockerMount :=
  match r.calls with
  | [.containerCreate _ _ _ hostConfig _] => hostConfig.Mounts
  | _ => []

/-- C1 counterexample: `localhost:5000/alpine` lacks an explicit tag (the
colon is a registry port, not a tag separator), yet `HasImage` does not
compare against `localhost:5000/alpine:latest`: with exactly that repo-tag
present in the daemon's list, it returns `false`, because the code's test
is `strings.Contains(image, ":")`, not tag presence. -/
theorem hasImage_explicitTag_counterexample :
    hasExplicitTag "localhost:5000/alpine" = false ∧
    (HasImage ⟨0, 1, 2, 3⟩ "localhost:5000/alpine"
        (.ok [⟨["localhost:5000/alpine:latest"]⟩])).result = false := by
  decide

/-- C1 (amended): for every non-empty reference containing no colon
anywhere, `HasImage` compares each repo-tag against the reference with
`:latest` appended; for every reference containing a colon anywhere (even
one that is a registry port or digest separator rather than a tag), the
comparison uses the reference unchanged. -/
theorem hasImage_colon_normalization (dm : DockerManager) (image : String)
    (imgs : List ImageInfo) (h : image ≠ "") :
    (HasImage dm image (.ok imgs)).result =
      imgs.any (fun imageInfo => imageInfo.RepoTags.any (fun tag =>
        tag == if image.data.contains ':' then image else image ++ ":latest")) := by
  simp [HasImage, h]

/-- Witness for `hasImage_colon_normalization` at `image = "alpine"`. -/
theorem hasImage_colon_normalization_witness :
    "alpine" ≠ "" ∧
    (HasImage ⟨0, 1, 2, 3⟩ "alpine" (.ok [⟨["alpine:latest"]⟩])).result =
      [ImageInfo.mk ["alpine:latest"]].any (fun imageInfo =>
        imageInfo.RepoTags.any (fun tag =>
          tag == if "alpine".data.contains ':' then "alpine"
                 else "alpine" ++ ":latest")) :=
  ⟨by decide,
   hasImage_colon_normalization ⟨0, 1, 2, 3⟩ "alpine" [⟨["alpine:latest"]⟩]
     (by decide)⟩

/-- C2: `HasImage` returns a bare `Bool` (no error can be propagated), and
when the daemon's image-listing query fails the result is `false`. -/
theorem hasImage_swallows_list_error (dm : DockerManager)
    (image : String) (e : String) :
    (HasImage dm image (.error e)).result = false := by
  by_cases h : image = "" <;> simp [HasImage, h]

/-- C3: `HasImage` on the empty string returns `false`, issues no daemon
call, and leaves the manager untouched — whatever the daemon would have
answered. -/
theorem hasImage_empty_no_call (dm : DockerManager)
    (listResult : Except String (List ImageInfo)) :
    HasImage dm "" listResult = ⟨false, [], dm, 0⟩ := by
  simp [HasImage]

/-- C4: when the reference fails to parse, `PullImage` returns the
reference-parse error and issues no daemon call at all. -/
theorem pullImage_parse_error_no_pull (dm : DockerManager) (image : String)
    (e : String) (cfgRead : Except String AuthConfigurations)
    (pullOutcome : Except String Unit) :
    PullImage dm image (.error e) cfgRead pullOutcome =
      ⟨some (.referenceParse e), [], dm, 0⟩ :=
  rfl

/-- C5: for a parseable reference whose registry domain has no stored
credentials (including an unreadable credential config), `PullImage` still
issues exactly one pull call, passing the raw (non-normalized) reference
string and the non-nil auth blob obtained by base64-URL-encoding the JSON
of the empty credential object — concretely the string `"e30="`. -/
theorem pullImage_anonymous_auth (dm : DockerManager) (image : String)
    (named : NamedRef) (cfgRead : Except String AuthConfigurations)
    (pullOutcome : Except String Unit)
    (h : storedCreds cfgRead named.domain = none) :
    (PullImage dm image (.ok named) cfgRead pullOutcome).calls =
      [.imagePull dm.client dm.context image
        (base64urlEncode (utf8Bytes (jsonMarshalAuthConfig AuthConfig.empty)))] ∧
    base64urlEncode (utf8Bytes (jsonMarshalAuthConfig AuthConfig.empty)) = "e30=" := by
  have hauth : getAuthConfig cfgRead named.domain = some AuthConfig.empty := by
    cases cfgRead with
    | error e => rfl
    | ok acs =>
        simp only [storedCreds] at h
        simp [getAuthConfig, h]
  refine ⟨?_, by decide⟩
  cases pullOutcome <;> simp [PullImage, hauth, goJsonMarshal]

/-- Witness for `pullImage_anonymous_auth`: pulling `alpine` from
`docker.io` with an unreadable credential config. -/
theorem pullImage_anonymous_auth_witness :
    storedCreds (.error "no docker cfg") (NamedRef.domain ⟨"docker.io", "library/alpine"⟩) = none ∧
    ((PullImage ⟨0, 1, 2, 3⟩ "alpine" (.ok ⟨"docker.io", "library/alpine"⟩)
        (.error "no docker cfg") (.ok ())).calls =
      [.imagePull 0 1 "alpine"
        (base64urlEncode (utf8Bytes (jsonMarshalAuthConfig AuthConfig.empty)))] ∧
     base64urlEncode (utf8Bytes (jsonMarshalAuthConfig AuthConfig.empty)) = "e30=") :=
  ⟨rfl,
   pullImage_anonymous_auth ⟨0, 1, 2, 3⟩ "alpine" ⟨"docker.io", "library/alpine"⟩
     (.error "no docker cfg") (.ok ()) rfl⟩

/-- C6: `ContainerCreate` translates the configuration's mount list
element-wise and in order into bind-mount create-parameters, preserving
source, target and read-only flag at every position (and hence producing
exactly as many mounts). -/
theorem containerCreate_mount_translation (dm : DockerManager)
    (config : Config) (wd : String) (createResult : Except String String) :
    (createCallMounts (ContainerCreate dm config (.ok wd) createResult)).length
        = config.Mounts.length ∧
    ∀ i : Nat,
      (createCallMounts (ContainerCreate dm config (.ok wd) createResult))[i]? =
      (config.Mounts[i]?).map (fun m =>
        ({ Source := m.Source, Target := m.Target, ReadOnly := m.ReadOnly,
           type := MountType.bind } : DockerMount)) := by
  cases createResult <;>
    simp [ContainerCreate, createCallMounts, List.getElem?_map]

/-- C7: whatever the `Cmd` string contains, the create call's container
config carries entrypoint `["sh"]` and command `["-c", Cmd]` with `Cmd`
verbatim, and the host config carries network mode `host` (and no
container name is assigned). -/
theorem containerCreate_shell_host_network (dm : DockerManager)
    (config : Config) (wd : String) (createResult : Except String String) :
    ∃ hostMounts env,
      (ContainerCreate dm config (.ok wd) createResult).calls =
        [.containerCreate dm.client dm.context
          ⟨config.Image, ["sh"], ["-c", config.Cmd], wd, env⟩
          ⟨hostMounts, "host"⟩ ""] := by
  cases createResult <;> exact ⟨_, _, rfl⟩

/-- C8: `GetSystemMounts` ignores the manager it is called on and always
returns exactly the two hard-coded mounts — the daemon control socket
read-write and the credential-config directory read-only — issuing no
daemon call. -/
theorem getSystemMounts_fixed (dm : DockerManager) :
    GetSystemMounts dm =
      ⟨[⟨"/var/run/docker.sock", "/var/run/docker.sock", false⟩,
        ⟨"/root/.docker", "/root/.docker", true⟩], [], dm, 0⟩ :=
  rfl

/-- C9: `getAuthConfig` always returns a non-nil credential object whose
fields other than username and password are zero-valued, and consequently
the JSON-marshal error branch inside `PullImage` is unreachable (Go's
marshaler cannot fail on a struct of plain string fields, as recorded in
`goJsonMarshal`). -/
theorem getAuthConfig_marshal_safe (cfgRead : Except String AuthConfigurations)
    (registry : String) (dm : DockerManager) (image : String) (named : NamedRef)
    (pullOutcome : Except String Unit) :
    (∃ ac, getAuthConfig cfgRead registry = some ac ∧
       ac.Auth = "" ∧ ac.Email = "" ∧ ac.ServerAddress = "" ∧
       ac.IdentityToken = "" ∧ ac.RegistryToken = "") ∧
    ∀ e, (PullImage dm image (.ok named) cfgRead pullOutcome).result ≠
      some (.marshal e) := by
  constructor
  · cases cfgRead with
    | error e => exact ⟨AuthConfig.empty, rfl, rfl, rfl, rfl, rfl, rfl⟩
    | ok acs =>
        cases hl : lookupConfig registry acs.Configs with
        | none =>
            exact ⟨AuthConfig.empty, by simp [getAuthConfig, hl],
                   rfl, rfl, rfl, rfl, rfl⟩
        | some ac =>
            refine ⟨⟨ac.Username, ac.Password, "", "", "", "", ""⟩,
                    ?_, rfl, rfl, rfl, rfl, rfl⟩
            simp [getAuthConfig, hl, AuthConfig.empty]
  · intro e
    cases pullOutcome <;> simp [PullImage, goJsonMarshal]

/-- C10: every public operation leaves the manager exactly as it found it
(all four fields unchanged) and acquires the mutex zero times. -/
theorem manager_state_immutable (dm : DockerManager) (image : String)
    (parseResult : Except String NamedRef)
    (cfgRead : Except String AuthConfigurations)
    (pullOutcome : Except String Unit)
    (listResult : Except String (List ImageInfo)) (config : Config)
    (wdResult : Except String String) (createResult : Except String String) :
    ((PullImage dm image parseResult cfgRead pullOutcome).dmAfter = dm ∧
     (PullImage dm image parseResult cfgRead pullOutcome).locks = 0) ∧
    ((HasImage dm image listResult).dmAfter = dm ∧
     (HasImage dm image listResult).locks = 0) ∧
    ((ContainerCreate dm config wdResult createResult).dmAfter = dm ∧
     (ContainerCreate dm config wdResult createResult).locks = 0) ∧
    ((GetSystemMounts dm).dmAfter = dm ∧ (GetSystemMounts dm).locks = 0) := by
  cases parseResult <;> cases pullOutcome <;> cases listResult <;>
    cases wdResult <;> cases createResult <;>
    by_cases h : image = "" <;>
    simp [PullImage, HasImage, ContainerCreate, GetSystemMounts,
          goJsonMarshal, h]

end ContainerManager
